import Mathlib

/-!
A verification development for the zugoweb attendance application.

The attendance core of the repository lives in `src/app.py` (geofence check
`is_at_office`, the check-in/check-out eligibility logic inside
`handle_attendance`, and the report aggregation `_build_report_for_user`)
together with the constants of `src/config.py`.  This file gives a shallow
embedding of that core:

* times of day are modelled as natural numbers counting seconds since
  midnight (Python `datetime.time` values compare exactly like their
  second counts; the code only ever compares times, and the one equality
  test `current_time == CHECKIN_AFTERNOON_EXACT` is an equality of
  time-of-day values);
* absolute event times (`event_time`, second-precision DATETIME) are
  integers counting seconds, and the calendar date of a timestamp is its
  floor-division by 86400, matching Python's `.date()` grouping;
* real coordinates and the haversine formula are modelled over `ℝ`
  (Python floats become reals; real arithmetic is total, so the
  `except ValueError` branch of `handle_attendance` has no counterpart —
  where this matters it is noted at the definition).
-/

namespace Zugoweb

/-! ### Configuration constants, from `src/config.py` -/

/-- `OFFICE_LAT = 11.1205615` (config.py). -/
def OFFICE_LAT : ℝ := 11.1205615

/-- `OFFICE_LON = 77.3396206` (config.py). -/
def OFFICE_LON : ℝ := 77.3396206

/-- `OFFICE_RADIUS_METERS = 100` (config.py). -/
def OFFICE_RADIUS_METERS : ℝ := 100

/-- `CHECKIN_MORNING_START = time(9, 30)`, as seconds since midnight. -/
def CHECKIN_MORNING_START : ℕ := 9 * 3600 + 30 * 60

/-- `CHECKIN_MORNING_END = time(19, 45)`, as seconds since midnight. -/
def CHECKIN_MORNING_END : ℕ := 19 * 3600 + 45 * 60

/-- `CHECKIN_AFTERNOON_EXACT = time(13, 30)`, as seconds since midnight. -/
def CHECKIN_AFTERNOON_EXACT : ℕ := 13 * 3600 + 30 * 60

/-- `CHECKOUT_MIN_TIME = time(19, 15)`, as seconds since midnight. -/
def CHECKOUT_MIN_TIME : ℕ := 19 * 3600 + 15 * 60

/-! ### Geofence checker, from `is_at_office` in `src/app.py` -/

/-- Python `math.radians`: degrees to radians. -/
noncomputable def radians (x : ℝ) : ℝ := x * Real.pi / 180

/-- The inner `haversine` function of `is_at_office` (app.py lines 226-232):
Earth radius 6371000 m, `a = sin²(dlat/2) + cos(lat1)·cos(lat2)·sin²(dlon/2)`,
`c = 2·asin(√a)`, result `R·c`. -/
noncomputable def haversine (lat1 lon1 lat2 lon2 : ℝ) : ℝ :=
  let R : ℝ := 6371000
  let dlat := radians (lat2 - lat1)
  let dlon := radians (lon2 - lon1)
  let a := Real.sin (dlat / 2) ^ 2 +
    Real.cos (radians lat1) * Real.cos (radians lat2) * Real.sin (dlon / 2) ^ 2
  let c := 2 * Real.arcsin (Real.sqrt a)
  R * c

/-- `is_at_office(lat, lon)` (app.py line 233): the haversine distance to the
configured office point is at most the configured radius. -/
def is_at_office (lat lon : ℝ) : Prop :=
  haversine lat lon OFFICE_LAT OFFICE_LON ≤ OFFICE_RADIUS_METERS

/-! ### Eligibility evaluator, from the check-in/check-out logic of
`handle_attendance` (app.py lines 576-610) -/

/-- The two recognized attendance actions (the `action` ENUM of the
`attendance` table). -/
inductive Action : Type
  | checkin
  | checkout
deriving DecidableEq

/-- Machine-distinguishable rejection reasons, one per redirect-with-error
branch of the eligibility logic in `handle_attendance`. -/
inductive Reason : Type
  | outside_checkin_window
  | already_checked_in
  | too_early_checkout
  | no_prior_checkin
  | already_checked_out
deriving DecidableEq

/-- Outcome of the eligibility evaluation. -/
inductive Decision : Type
  | accept
  | reject (r : Reason)
deriving DecidableEq

/-- The eligibility evaluator: the body of the `if action == "check-in"` /
`elif action == "check-out"` blocks of `handle_attendance` (app.py 576-610).
`t` is the time of day of `now` in seconds, `todays` the actions of this
user's events whose `event_time` falls on today's date, in store order.
The branches appear in source order: for check-in, the window test precedes
the duplicate test; for check-out, the minimum-time test precedes the
prior-check-in test, which precedes the duplicate test. -/
def evaluate (action : Action) (t : ℕ) (todays : List Action) : Decision :=
  match action with
  | .checkin =>
    if ¬ ((CHECKIN_MORNING_START ≤ t ∧ t ≤ CHECKIN_MORNING_END) ∨
          t = CHECKIN_AFTERNOON_EXACT) then
      .reject .outside_checkin_window
    else if Action.checkin ∈ todays then
      .reject .already_checked_in
    else
      .accept
  | .checkout =>
    if t < CHECKOUT_MIN_TIME then
      .reject .too_early_checkout
    else if Action.checkin ∉ todays then
      .reject .no_prior_checkin
    else if Action.checkout ∈ todays then
      .reject .already_checked_out
    else
      .accept

/-- Claim C1: with no prior events today, a check-in is accepted exactly when
its time of day lies in the inclusive morning window
`[CHECKIN_MORNING_START, CHECKIN_MORNING_END]` or equals
`CHECKIN_AFTERNOON_EXACT`; with the stored config this window is
[09:30, 19:45], a 09:30:00 check-in is accepted and a 09:29:59 check-in is
rejected with reason `outside_checkin_window`. -/
theorem checkin_window_iff :
    (∀ t : ℕ, evaluate .checkin t [] = .accept ↔
      ((CHECKIN_MORNING_START ≤ t ∧ t ≤ CHECKIN_MORNING_END) ∨
        t = CHECKIN_AFTERNOON_EXACT)) ∧
    CHECKIN_MORNING_START = 9 * 3600 + 30 * 60 ∧
    CHECKIN_MORNING_END = 19 * 3600 + 45 * 60 ∧
    evaluate .checkin (9 * 3600 + 30 * 60) [] = .accept ∧
    evaluate .checkin (9 * 3600 + 29 * 60 + 59) [] =
      .reject .outside_checkin_window := by
  refine ⟨fun t => ?_, rfl, rfl, by decide, by decide⟩
  by_cases h : (CHECKIN_MORNING_START ≤ t ∧ t ≤ CHECKIN_MORNING_END) ∨
      t = CHECKIN_AFTERNOON_EXACT
  · simp [evaluate, h]
  · simp [evaluate, h]

/-- Claim C2: the check-out rules apply in order with the first matching
rejection winning: strictly before `CHECKOUT_MIN_TIME` (19:15 in the stored
config, so exactly 19:15 passes) the reason is `too_early_checkout`;
otherwise, with no check-in today, `no_prior_checkin`; otherwise, with a
check-out already today, `already_checked_out`; otherwise accept. -/
theorem checkout_rule_order :
    (∀ (t : ℕ) (todays : List Action),
      (t < CHECKOUT_MIN_TIME →
        evaluate .checkout t todays = .reject .too_early_checkout) ∧
      (CHECKOUT_MIN_TIME ≤ t → Action.checkin ∉ todays →
        evaluate .checkout t todays = .reject .no_prior_checkin) ∧
      (CHECKOUT_MIN_TIME ≤ t → Action.checkin ∈ todays →
        Action.checkout ∈ todays →
        evaluate .checkout t todays = .reject .already_checked_out) ∧
      (CHECKOUT_MIN_TIME ≤ t → Action.checkin ∈ todays →
        Action.checkout ∉ todays →
        evaluate .checkout t todays = .accept)) ∧
    CHECKOUT_MIN_TIME = 19 * 3600 + 15 * 60 := by
  refine ⟨fun t todays => ⟨fun h => ?_, fun h h2 => ?_, fun h h2 h3 => ?_,
    fun h h2 h3 => ?_⟩, rfl⟩
  · simp [evaluate, h]
  · simp [evaluate, Nat.not_lt.mpr h, h2]
  · simp [evaluate, Nat.not_lt.mpr h, h2, h3]
  · simp [evaluate, Nat.not_lt.mpr h, h2, h3]

/-- Witness for `checkout_rule_order`: a check-out exactly at 19:15 with a
prior check-in is accepted, and one at 19:14:59 is rejected as too early. -/
theorem checkout_rule_order_witness :
    evaluate .checkout (19 * 3600 + 15 * 60) [Action.checkin] = .accept ∧
    evaluate .checkout (19 * 3600 + 14 * 60 + 59) [Action.checkin] =
      .reject .too_early_checkout := by
  refine ⟨(checkout_rule_order.1 (19 * 3600 + 15 * 60) [Action.checkin]).2.2.2
      (by decide) (by decide) (by decide),
    (checkout_rule_order.1 (19 * 3600 + 14 * 60 + 59) [Action.checkin]).1
      (by decide)⟩

/-- Claim C5, counterexample: with a check-in already present today, a
check-in attempt at 09:29:59 (outside the window) is rejected with reason
`outside_checkin_window`, not `already_checked_in` — the window test runs
first, so the claimed reason does not hold for every `t`. -/
theorem already_checked_in_not_for_all_t :
    evaluate .checkin (9 * 3600 + 29 * 60 + 59) [Action.checkin] ≠
      .reject .already_checked_in ∧
    evaluate .checkin (9 * 3600 + 29 * 60 + 59) [Action.checkin] =
      .reject .outside_checkin_window := by
  decide

/-- Claim C5, amended: with a check-in already present today, a check-in is
rejected with reason `already_checked_in` for every `t` inside the check-in
window (morning window or the exact afternoon instant); for `t` outside the
window the rejection reason is `outside_checkin_window` instead. -/
theorem already_checked_in_inside_window (t : ℕ) (todays : List Action)
    (hmem : Action.checkin ∈ todays) :
    (((CHECKIN_MORNING_START ≤ t ∧ t ≤ CHECKIN_MORNING_END) ∨
        t = CHECKIN_AFTERNOON_EXACT) →
      evaluate .checkin t todays = .reject .already_checked_in) ∧
    (¬ ((CHECKIN_MORNING_START ≤ t ∧ t ≤ CHECKIN_MORNING_END) ∨
        t = CHECKIN_AFTERNOON_EXACT) →
      evaluate .checkin t todays = .reject .outside_checkin_window) := by
  constructor
  · intro hwin
    simp [evaluate, hwin, hmem]
  · intro hwin
    simp [evaluate, hwin]

/-- Witness for `already_checked_in_inside_window`: at the exact afternoon
instant 13:30 with a prior check-in, the result is
`Reject already_checked_in`. -/
theorem already_checked_in_inside_window_witness :
    evaluate .checkin (13 * 3600 + 30 * 60) [Action.checkin] =
      .reject .already_checked_in :=
  (already_checked_in_inside_window (13 * 3600 + 30 * 60) [Action.checkin]
    (by decide)).1 (by decide)

/-! ### The attendance handler, from `handle_attendance` (app.py 531-646) -/

/-- The observable outcome of one `POST /attendance` request, after the
session check.  `locationOutside` is the redirect
"Location outside office bounds", `invalidLocation` the redirect
"Invalid location data" produced by the `except ValueError` handler,
`rejected r` an eligibility redirect, and `inserted` means the
`INSERT INTO attendance` statement runs for this request. -/
inductive HandlerOutcome : Type
  | locationOutside
  | invalidLocation
  | rejected (r : Reason)
  | inserted
deriving DecidableEq

open scoped Classical in
/-- The request-handling path of `handle_attendance` (app.py 531-646) after
the session check: geofence test first, then eligibility dispatch on the
`action` form string, then the ledger insert.  In this real-number model
arithmetic is total, so the `except ValueError` branch (`invalidLocation`)
is unreachable: `float()` of a float cannot fail, and over `ℝ` the square
root and arcsine of the haversine computation are total functions.  Actions
other than "check-in" and "check-out" skip every eligibility test, exactly
as in the source, and fall through to the insert. -/
noncomputable def handle_attendance (lat lon : ℝ) (action : String) (t : ℕ)
    (todays : List Action) : HandlerOutcome :=
  if ¬ is_at_office lat lon then .locationOutside
  else if action = "check-in" then
    match evaluate .checkin t todays with
    | .accept => .inserted
    | .reject r => .rejected r
  else if action = "check-out" then
    match evaluate .checkout t todays with
    | .accept => .inserted
    | .reject r => .rejected r
  else .inserted

/-- The haversine distance from a point to itself is zero. -/
theorem haversine_self (lat lon : ℝ) : haversine lat lon lat lon = 0 := by
  simp [haversine, radians, sub_self]

/-- The office coordinate itself is inside the geofence. -/
theorem is_at_office_office : is_at_office OFFICE_LAT OFFICE_LON := by
  unfold is_at_office
  rw [haversine_self]
  norm_num [OFFICE_RADIUS_METERS]

/-- Shifting the latitude by a full 360 degrees leaves the haversine
distance at zero: the formula only sees the angles through sine and
cosine. -/
theorem haversine_add360 (lat lon : ℝ) :
    haversine (lat + 360) lon lat lon = 0 := by
  have h2 : Real.sin (-(360 * Real.pi) / 180 / 2) = 0 := by
    have h1 : (-(360 * Real.pi) / 180 / 2 : ℝ) = -Real.pi := by ring
    rw [h1, Real.sin_neg, Real.sin_pi, neg_zero]
  simp [haversine, radians, sub_self, h2]

/-- The great-circle distance exactly as the specification displays it
(§4.1): `a = sin²(Δlat/2) + cos(lat1)·cos(lat2)·sin²(Δlon/2)` and
`distance = 2 · R · asin(√a)` with Earth radius `R = 6,371,000` meters.
Stated independently of `haversine` so the source formula can be compared
against it. -/
noncomputable def spec_haversine_distance (lat1 lon1 lat2 lon2 : ℝ) : ℝ :=
  let a := Real.sin (radians (lat2 - lat1) / 2) ^ 2 +
    Real.cos (radians lat1) * Real.cos (radians lat2) *
      Real.sin (radians (lon2 - lon1) / 2) ^ 2
  2 * 6371000 * Real.arcsin (Real.sqrt a)

/-- Claim C7: `is_at_office` holds exactly when the haversine great-circle
distance (Earth radius 6,371,000 m) to the configured office coordinate is
at most the configured radius — an inclusive boundary — and at the office
coordinate itself the distance is 0 and the check passes.  Side-effect
freedom and determinism hold by construction: the check is a pure
predicate of its arguments. -/
theorem is_at_office_iff_distance_le :
    (∀ lat lon : ℝ, is_at_office lat lon ↔
      spec_haversine_distance lat lon OFFICE_LAT OFFICE_LON ≤
        OFFICE_RADIUS_METERS) ∧
    spec_haversine_distance OFFICE_LAT OFFICE_LON OFFICE_LAT OFFICE_LON = 0 ∧
    is_at_office OFFICE_LAT OFFICE_LON := by
  refine ⟨fun lat lon => ?_, ?_, is_at_office_office⟩
  · rw [is_at_office]
    have h : haversine lat lon OFFICE_LAT OFFICE_LON =
        spec_haversine_distance lat lon OFFICE_LAT OFFICE_LON := by
      simp only [haversine, spec_haversine_distance]
      ring
    rw [h]
  · simp [spec_haversine_distance, radians, sub_self]

/-- A latitude a full turn above the office latitude is far out of the
valid range yet still passes the geofence. -/
theorem is_at_office_shifted :
    is_at_office (OFFICE_LAT + 360) OFFICE_LON := by
  unfold is_at_office
  rw [haversine_add360]
  norm_num [OFFICE_RADIUS_METERS]

/-- Claim C6, counterexample: the latitude `OFFICE_LAT + 360 ≈ 371.12` is
far outside the valid range `[-90, 90]`, yet no `InvalidLocation` error is
raised: the coordinate flows into the geofence evaluation, passes it
(the haversine distance is 0), and a check-in request at 09:30 with an
empty ledger is persisted. -/
theorem invalid_latitude_is_persisted :
    90 < OFFICE_LAT + 360 ∧
    is_at_office (OFFICE_LAT + 360) OFFICE_LON ∧
    handle_attendance (OFFICE_LAT + 360) OFFICE_LON "check-in"
      CHECKIN_MORNING_START [] = .inserted ∧
    HandlerOutcome.inserted ≠ HandlerOutcome.invalidLocation := by
  refine ⟨by norm_num [OFFICE_LAT], is_at_office_shifted, ?_, by decide⟩
  have hacc : evaluate .checkin CHECKIN_MORNING_START [] = .accept := by decide
  simp [handle_attendance, is_at_office_shifted, hacc]

/-- Claim C6, amended: the handler performs no range or finiteness
validation of the coordinates.  "Invalid location data" is reported only
when the location computation raises (which real arithmetic never does),
so the outcome is never `invalidLocation`; in particular a coordinate that
is out of range but passes the geofence proceeds to eligibility and, for an
accepted check-in, is persisted. -/
theorem no_coordinate_range_validation (lat lon : ℝ) (a : String) (t : ℕ)
    (todays : List Action)
    (hrange : lat < -90 ∨ 90 < lat ∨ lon < -180 ∨ 180 < lon)
    (hoff : is_at_office lat lon) :
    handle_attendance lat lon a t todays ≠ .invalidLocation ∧
    (a = "check-in" → evaluate .checkin t todays = .accept →
      handle_attendance lat lon a t todays = .inserted) := by
  constructor
  · by_cases h1 : a = "check-in"
    · subst h1
      cases hev : evaluate .checkin t todays <;>
        simp [handle_attendance, hoff, hev]
    · by_cases h2 : a = "check-out"
      · subst h2
        cases hev : evaluate .checkout t todays <;>
          simp [handle_attendance, hoff, hev]
      · simp [handle_attendance, hoff, h1, h2]
  · intro ha hacc
    subst ha
    simp [handle_attendance, hoff, hacc]

/-- Witness for `no_coordinate_range_validation`: concrete out-of-range
latitude `OFFICE_LAT + 360`, accepted check-in time 09:30, empty ledger. -/
theorem no_coordinate_range_validation_witness :
    handle_attendance (OFFICE_LAT + 360) OFFICE_LON "check-in"
      CHECKIN_MORNING_START [] = .inserted :=
  (no_coordinate_range_validation (OFFICE_LAT + 360) OFFICE_LON "check-in"
    CHECKIN_MORNING_START []
    (Or.inr (Or.inl (by norm_num [OFFICE_LAT])))
    is_at_office_shifted).2 rfl (by decide)

/-- Claim C9: for an action string that is neither "check-in" nor
"check-out", once the geofence passes, no eligibility rule runs: the
insert happens for every time of day and every prior state of today's
ledger. -/
theorem unknown_action_inserted_unconditionally (lat lon : ℝ) (a : String)
    (t : ℕ) (todays : List Action) (hoff : is_at_office lat lon)
    (h1 : a ≠ "check-in") (h2 : a ≠ "check-out") :
    handle_attendance lat lon a t todays = .inserted := by
  simp [handle_attendance, hoff, h1, h2]

/-- Witness for `unknown_action_inserted_unconditionally`: action "lunch"
from the office coordinate, at midnight, with an arbitrary ledger state. -/
theorem unknown_action_inserted_unconditionally_witness :
    handle_attendance OFFICE_LAT OFFICE_LON "lunch" 0
      [Action.checkin, Action.checkout] = .inserted :=
  unknown_action_inserted_unconditionally OFFICE_LAT OFFICE_LON "lunch" 0
    [Action.checkin, Action.checkout] is_at_office_office
    (by decide) (by decide)

/-! ### Serialized request processing (for the per-day ledger invariant) -/

/-- One accepted row of the `attendance` ledger: its action, the calendar
day of its `event_time`, and its time of day in seconds. -/
structure Event : Type where
  action : Action
  day : ℤ
  tod : ℕ
deriving DecidableEq

/-- One `POST /attendance` request for this employee: requested action and
the date and time of day of `now` when it is processed. -/
structure Request : Type where
  action : Action
  day : ℤ
  tod : ℕ
deriving DecidableEq

/-- The actions of the ledger events whose date is `d`, in store order —
the `todays_records` query of `handle_attendance` (app.py 563-573)
restricted to the fields the evaluator reads. -/
def todaysActions (ledger : List Event) (d : ℤ) : List Action :=
  (ledger.filter fun e => decide (e.day = d)).map (·.action)

/-- Process one request serially: evaluate it against today's events and
append the event exactly when the evaluator accepts. -/
def processRequest (ledger : List Event) (r : Request) : List Event :=
  match evaluate r.action r.tod (todaysActions ledger r.day) with
  | .accept => ledger ++ [⟨r.action, r.day, r.tod⟩]
  | .reject _ => ledger

/-- Process a sequence of requests serially, starting from an empty ledger. -/
def processAll (reqs : List Request) : List Event :=
  reqs.foldl processRequest []

/-- Number of ledger events on day `d` with action `a`. -/
def countOn (ledger : List Event) (d : ℤ) (a : Action) : ℕ :=
  ledger.countP fun e => decide (e.day = d ∧ e.action = a)

/-- The per-day ledger invariant: at most one check-in and at most one
check-out per calendar day, and a check-out only on a day that also has a
check-in. -/
def LedgerInv (ledger : List Event) : Prop :=
  ∀ d : ℤ, countOn ledger d .checkin ≤ 1 ∧ countOn ledger d .checkout ≤ 1 ∧
    (1 ≤ countOn ledger d .checkout → 1 ≤ countOn ledger d .checkin)

theorem mem_todaysActions_iff (ledger : List Event) (d : ℤ) (a : Action) :
    a ∈ todaysActions ledger d ↔ 0 < countOn ledger d a := by
  rw [todaysActions, countOn, List.countP_pos_iff]
  simp only [List.mem_map, List.mem_filter, decide_eq_true_eq]
  constructor
  · rintro ⟨e, ⟨he, hd⟩, ha⟩
    exact ⟨e, he, hd, ha⟩
  · rintro ⟨e, he, hd, ha⟩
    exact ⟨e, ⟨he, hd⟩, ha⟩

theorem countOn_append_single (ledger : List Event) (x : Event) (d : ℤ)
    (a : Action) :
    countOn (ledger ++ [x]) d a =
      countOn ledger d a + (if x.day = d ∧ x.action = a then 1 else 0) := by
  by_cases h : x.day = d ∧ x.action = a <;>
    simp [countOn, List.countP_append, List.countP_cons, h]

theorem evaluate_checkin_accept {t : ℕ} {todays : List Action}
    (h : evaluate .checkin t todays = .accept) :
    Action.checkin ∉ todays := by
  intro hmem
  by_cases hwin : (CHECKIN_MORNING_START ≤ t ∧ t ≤ CHECKIN_MORNING_END) ∨
      t = CHECKIN_AFTERNOON_EXACT
  · simp [evaluate, hwin, hmem] at h
  · simp [evaluate, hwin] at h

theorem evaluate_checkout_accept {t : ℕ} {todays : List Action}
    (h : evaluate .checkout t todays = .accept) :
    Action.checkin ∈ todays ∧ Action.checkout ∉ todays := by
  by_cases hlt : t < CHECKOUT_MIN_TIME
  · simp [evaluate, hlt] at h
  · by_cases hin : Action.checkin ∈ todays
    · by_cases hout : Action.checkout ∈ todays
      · simp [evaluate, hlt, hin, hout] at h
      · exact ⟨hin, hout⟩
    · simp [evaluate, hlt, hin] at h

theorem processRequest_preserves_inv {ledger : List Event}
    (hinv : LedgerInv ledger) (r : Request) :
    LedgerInv (processRequest ledger r) := by
  rw [processRequest]
  cases hev : evaluate r.action r.tod (todaysActions ledger r.day) with
  | reject reason => exact hinv
  | accept =>
    intro d
    obtain ⟨hci, hco, himp⟩ := hinv d
    by_cases hd : r.day = d
    · subst hd
      cases ha : r.action with
      | checkin =>
        rw [ha] at hev
        have hnot := evaluate_checkin_accept hev
        rw [mem_todaysActions_iff] at hnot
        have hzero : countOn ledger r.day .checkin = 0 := by omega
        refine ⟨?_, ?_, ?_⟩ <;>
          simp [countOn_append_single, ha, hzero] <;> omega
      | checkout =>
        rw [ha] at hev
        obtain ⟨hin, hout⟩ := evaluate_checkout_accept hev
        rw [mem_todaysActions_iff] at hin
        rw [mem_todaysActions_iff] at hout
        have hzero : countOn ledger r.day .checkout = 0 := by omega
        refine ⟨?_, ?_, ?_⟩ <;>
          simp [countOn_append_single, ha, hzero] <;> omega
    · have hne : ¬ ((⟨r.action, r.day, r.tod⟩ : Event).day = d ∧
          (⟨r.action, r.day, r.tod⟩ : Event).action = .checkin) := by
        simp [hd]
      have hne2 : ¬ ((⟨r.action, r.day, r.tod⟩ : Event).day = d ∧
          (⟨r.action, r.day, r.tod⟩ : Event).action = .checkout) := by
        simp [hd]
      refine ⟨?_, ?_, ?_⟩ <;>
        simp [countOn_append_single, hne, hne2] <;> omega

theorem foldl_preserves_inv (reqs : List Request) :
    ∀ ledger : List Event, LedgerInv ledger →
      LedgerInv (reqs.foldl processRequest ledger) := by
  induction reqs with
  | nil => intro ledger h; exact h
  | cons r rs ih =>
    intro ledger h
    exact ih _ (processRequest_preserves_inv h r)

/-- Claim C3: any sequence of requests for one employee, processed serially
through the evaluator as the sole write path, yields a ledger in which every
calendar day has at most one accepted check-in, at most one accepted
check-out, and a check-out only together with a check-in of the same day. -/
theorem serial_processing_ledger_invariant (reqs : List Request) :
    LedgerInv (processAll reqs) := by
  apply foldl_preserves_inv
  intro d
  refine ⟨by simp [countOn], by simp [countOn], by simp [countOn]⟩

/-! ### Period aggregator, from `_build_report_for_user` (app.py 803-855) -/

/-- One raw row of the attendance ledger as the report query returns it:
`event_time` in seconds (second-precision DATETIME) and the action. -/
structure REvent : Type where
  time : ℤ
  action : Action
deriving DecidableEq

/-- The calendar date of a timestamp, as a day index: floor division by
86400, matching the grouping `r["event_time"].date()`. -/
def eventDay (t : ℤ) : ℤ := Int.fdiv t 86400

/-- The rows the SQL query of `_build_report_for_user` returns: events with
`event_time BETWEEN start_date AND end_date` (both bounds inclusive). -/
def inWindowRows (events : List REvent) (s e : ℤ) : List REvent :=
  events.filter fun r => decide (s ≤ r.time ∧ r.time ≤ e)

/-- The emitted day keys: `sorted(by_date.items())` over the distinct
dates of the in-window rows.  Sorting ISO date strings lexicographically
is sorting the day indices numerically. -/
def reportDays (events : List REvent) (s e : ℤ) : List ℤ :=
  List.insertionSort (· ≤ ·)
    (((inWindowRows events s e).map fun r => eventDay r.time).dedup)

/-- `check_ins` for day `d`: the `event_time`s of that day's check-in rows.
The source first groups rows by date and then filters the group by action;
filtering by the conjunction of both tests over all rows is the same list. -/
def checkinTimes (rows : List REvent) (d : ℤ) : List ℤ :=
  (rows.filter fun r =>
    decide (eventDay r.time = d ∧ r.action = Action.checkin)).map (·.time)

/-- `check_outs` for day `d`, as `checkinTimes`. -/
def checkoutTimes (rows : List REvent) (d : ℤ) : List ℤ :=
  (rows.filter fun r =>
    decide (eventDay r.time = d ∧ r.action = Action.checkout)).map (·.time)

/-- One report row: `{day, check_in, check_out, total hours}` of the source,
keeping the underlying timestamps and the exact seconds value from which
the display strings are formatted. -/
structure DayRow : Type where
  day : ℤ
  check_in : Option ℤ
  check_out : Option ℤ
  worked : ℤ
deriving DecidableEq

/-- The report row for one day (app.py 831-853): earliest check-in,
latest check-out, and `seconds = max(check_outs) - min(check_ins)` when
both sides exist, 0 otherwise. -/
def dayRow (rows : List REvent) (d : ℤ) : DayRow :=
  let ci := (checkinTimes rows d).min?
  let co := (checkoutTimes rows d).max?
  ⟨d, ci, co,
    match ci, co with
    | some a, some b => b - a
    | _, _ => 0⟩

/-- `_build_report_for_user`: the emitted rows in date order together with
`total_working_seconds`.  The source adds `seconds` to the running total
only when both sides exist, and `seconds` is 0 otherwise, so the total is
the sum of the per-row `worked` values. -/
def build_report (events : List REvent) (s e : ℤ) : List DayRow × ℤ :=
  let rpt := (reportDays events s e).map (dayRow (inWindowRows events s e))
  (rpt, (rpt.map (·.worked)).sum)

theorem dayRow_day (rows : List REvent) (d : ℤ) : (dayRow rows d).day = d :=
  rfl

theorem dayRow_check_in (rows : List REvent) (d : ℤ) :
    (dayRow rows d).check_in = (checkinTimes rows d).min? := rfl

theorem dayRow_check_out (rows : List REvent) (d : ℤ) :
    (dayRow rows d).check_out = (checkoutTimes rows d).max? := rfl

theorem dayRow_worked (rows : List REvent) (d : ℤ) :
    (dayRow rows d).worked =
      match (checkinTimes rows d).min?, (checkoutTimes rows d).max? with
      | some a, some b => b - a
      | _, _ => 0 := rfl

theorem report_map_day (events : List REvent) (s e : ℤ) :
    (build_report events s e).1.map (·.day) = reportDays events s e := by
  show ((reportDays events s e).map
      (dayRow (inWindowRows events s e))).map (·.day) = reportDays events s e
  rw [List.map_map]
  have h : ((fun row : DayRow => row.day) ∘ dayRow (inWindowRows events s e)) =
      id := by
    funext d
    rfl
  rw [h, List.map_id]

theorem mem_reportDays_iff (events : List REvent) (s e d : ℤ) :
    d ∈ reportDays events s e ↔
      ∃ r ∈ events, (s ≤ r.time ∧ r.time ≤ e) ∧ eventDay r.time = d := by
  rw [reportDays, (List.perm_insertionSort _ _).mem_iff, List.mem_dedup]
  simp only [List.mem_map, inWindowRows, List.mem_filter, decide_eq_true_eq]
  constructor
  · rintro ⟨r, ⟨hr, hw⟩, hd⟩
    exact ⟨r, hr, hw, hd⟩
  · rintro ⟨r, hr, hw, hd⟩
    exact ⟨r, ⟨hr, hw⟩, hd⟩

theorem mem_checkinTimes_iff (events : List REvent) (s e d v : ℤ) :
    v ∈ checkinTimes (inWindowRows events s e) d ↔
      ∃ r ∈ events, (s ≤ r.time ∧ r.time ≤ e) ∧ eventDay r.time = d ∧
        r.action = Action.checkin ∧ r.time = v := by
  simp only [checkinTimes, inWindowRows, List.mem_map, List.mem_filter,
    List.filter_filter, decide_eq_true_eq, Bool.and_eq_true]
  aesop

theorem mem_checkoutTimes_iff (events : List REvent) (s e d v : ℤ) :
    v ∈ checkoutTimes (inWindowRows events s e) d ↔
      ∃ r ∈ events, (s ≤ r.time ∧ r.time ≤ e) ∧ eventDay r.time = d ∧
        r.action = Action.checkout ∧ r.time = v := by
  simp only [checkoutTimes, inWindowRows, List.mem_map, List.mem_filter,
    List.filter_filter, decide_eq_true_eq, Bool.and_eq_true]
  aesop

theorem int_min?_eq_some_iff (xs : List ℤ) (a : ℤ) :
    xs.min? = some a ↔ a ∈ xs ∧ ∀ b ∈ xs, a ≤ b := by
  haveI : Std.Antisymm ((· : ℤ) ≤ ·) := ⟨fun h h2 => le_antisymm h h2⟩
  exact List.min?_eq_some_iff (fun x => le_refl x) (fun x y => min_choice x y)
    (fun x y z => le_min_iff)

theorem int_max?_eq_some_iff (xs : List ℤ) (a : ℤ) :
    xs.max? = some a ↔ a ∈ xs ∧ ∀ b ∈ xs, b ≤ a := by
  haveI : Std.Antisymm ((· : ℤ) ≤ ·) := ⟨fun h h2 => le_antisymm h h2⟩
  exact List.max?_eq_some_iff (fun x => le_refl x) (fun x y => max_choice x y)
    (fun x y z => max_le_iff)

/-- Claim C8: report rows are strictly ascending by calendar date, and a
date is emitted exactly when some event of the employee lies inside the
requested window on that date — so no zero-filled days, and no day derived
from an event outside the window. -/
theorem report_days_sorted_sparse_windowed (events : List REvent) (s e : ℤ) :
    ((build_report events s e).1.map (·.day)).Pairwise (· < ·) ∧
    ∀ d : ℤ, (∃ row ∈ (build_report events s e).1, row.day = d) ↔
      ∃ r ∈ events, (s ≤ r.time ∧ r.time ≤ e) ∧ eventDay r.time = d := by
  constructor
  · rw [report_map_day, reportDays]
    have hn := (List.perm_insertionSort (· ≤ · : ℤ → ℤ → Prop)
      (((inWindowRows events s e).map fun r => eventDay r.time).dedup)).nodup_iff.mpr
      (List.nodup_dedup _)
    exact (List.sorted_insertionSort _ _).lt_of_le hn
  · intro d
    have h1 : (∃ row ∈ (build_report events s e).1, row.day = d) ↔
        d ∈ (build_report events s e).1.map (·.day) := by
      simp [List.mem_map]
    rw [h1, report_map_day, mem_reportDays_iff]

/-- Claim C4: for each emitted day, `check_in` is the minimum in-window
check-in `event_time` of that day (absent when there is none), `check_out`
the maximum in-window check-out `event_time` (absent when none),
`worked` their difference in seconds when both are present and 0 otherwise,
and the returned total is the sum of the per-day `worked` values; a day
with check-in 09:30 and check-out 19:15 yields `worked = 35100` and total
35100, and a day with only a check-in yields `worked = 0`. -/
theorem report_day_aggregation :
    (∀ (events : List REvent) (s e : ℤ),
      (build_report events s e).2 =
        ((build_report events s e).1.map (·.worked)).sum) ∧
    (∀ (events : List REvent) (s e : ℤ) (row : DayRow),
      row ∈ (build_report events s e).1 →
      (row.check_in = none ↔
        ¬ ∃ r ∈ events, (s ≤ r.time ∧ r.time ≤ e) ∧
          eventDay r.time = row.day ∧ r.action = Action.checkin) ∧
      (∀ v : ℤ, row.check_in = some v ↔
        ((∃ r ∈ events, (s ≤ r.time ∧ r.time ≤ e) ∧
            eventDay r.time = row.day ∧ r.action = Action.checkin ∧
            r.time = v) ∧
          ∀ r ∈ events, (s ≤ r.time ∧ r.time ≤ e) →
            eventDay r.time = row.day → r.action = Action.checkin →
            v ≤ r.time)) ∧
      (row.check_out = none ↔
        ¬ ∃ r ∈ events, (s ≤ r.time ∧ r.time ≤ e) ∧
          eventDay r.time = row.day ∧ r.action = Action.checkout) ∧
      (∀ v : ℤ, row.check_out = some v ↔
        ((∃ r ∈ events, (s ≤ r.time ∧ r.time ≤ e) ∧
            eventDay r.time = row.day ∧ r.action = Action.checkout ∧
            r.time = v) ∧
          ∀ r ∈ events, (s ≤ r.time ∧ r.time ≤ e) →
            eventDay r.time = row.day → r.action = Action.checkout →
            r.time ≤ v)) ∧
      (∀ a b : ℤ, row.check_in = some a → row.check_out = some b →
        row.worked = b - a) ∧
      ((row.check_in = none ∨ row.check_out = none) → row.worked = 0)) ∧
    build_report [⟨34200, .checkin⟩, ⟨69300, .checkout⟩] 0 86399 =
      ([⟨0, some 34200, some 69300, 35100⟩], 35100) ∧
    build_report [⟨34200, .checkin⟩] 0 86399 =
      ([⟨0, some 34200, none, 0⟩], 0) := by
  refine ⟨fun events s e => rfl, ?_, by decide, by decide⟩
  intro events s e row hrow
  rw [build_report] at hrow
  simp only [List.mem_map] at hrow
  obtain ⟨d, hd, hrw⟩ := hrow
  subst hrw
  rw [dayRow_day]
  refine ⟨?_, ?_, ?_, ?_, ?_, ?_⟩
  · rw [dayRow_check_in, List.min?_eq_none_iff, List.eq_nil_iff_forall_not_mem]
    constructor
    · rintro hnone ⟨r, hr, hw, hday, ha⟩
      exact hnone r.time ((mem_checkinTimes_iff events s e d r.time).mpr
        ⟨r, hr, hw, hday, ha, rfl⟩)
    · intro hno v hv
      obtain ⟨r, hr, hw, hday, ha, hv2⟩ :=
        (mem_checkinTimes_iff events s e d v).mp hv
      exact hno ⟨r, hr, hw, hday, ha⟩
  · intro v
    rw [dayRow_check_in, int_min?_eq_some_iff]
    constructor
    · rintro ⟨hmem, hle⟩
      refine ⟨(mem_checkinTimes_iff events s e d v).mp hmem, ?_⟩
      intro r hr hw hday ha
      exact hle r.time ((mem_checkinTimes_iff events s e d r.time).mpr
        ⟨r, hr, hw, hday, ha, rfl⟩)
    · rintro ⟨hex, hlb⟩
      refine ⟨(mem_checkinTimes_iff events s e d v).mpr hex, ?_⟩
      intro b hb
      obtain ⟨r, hr, hw, hday, ha, hv2⟩ :=
        (mem_checkinTimes_iff events s e d b).mp hb
      exact hv2 ▸ hlb r hr hw hday ha
  · rw [dayRow_check_out, List.max?_eq_none_iff, List.eq_nil_iff_forall_not_mem]
    constructor
    · rintro hnone ⟨r, hr, hw, hday, ha⟩
      exact hnone r.time ((mem_checkoutTimes_iff events s e d r.time).mpr
        ⟨r, hr, hw, hday, ha, rfl⟩)
    · intro hno v hv
      obtain ⟨r, hr, hw, hday, ha, hv2⟩ :=
        (mem_checkoutTimes_iff events s e d v).mp hv
      exact hno ⟨r, hr, hw, hday, ha⟩
  · intro v
    rw [dayRow_check_out, int_max?_eq_some_iff]
    constructor
    · rintro ⟨hmem, hle⟩
      refine ⟨(mem_checkoutTimes_iff events s e d v).mp hmem, ?_⟩
      intro r hr hw hday ha
      exact hle r.time ((mem_checkoutTimes_iff events s e d r.time).mpr
        ⟨r, hr, hw, hday, ha, rfl⟩)
    · rintro ⟨hex, hub⟩
      refine ⟨(mem_checkoutTimes_iff events s e d v).mpr hex, ?_⟩
      intro b hb
      obtain ⟨r, hr, hw, hday, ha, hv2⟩ :=
        (mem_checkoutTimes_iff events s e d b).mp hb
      exact hv2 ▸ hub r hr hw hday ha
  · intro a b hci hco
    rw [dayRow_check_in] at hci
    rw [dayRow_check_out] at hco
    rw [dayRow_worked, hci, hco]
  · intro hnone
    rcases hnone with hci | hco
    · rw [dayRow_check_in] at hci
      rw [dayRow_worked, hci]
    · rw [dayRow_check_out] at hco
      rw [dayRow_worked, hco]
      cases (checkinTimes (inWindowRows events s e) d).min? <;> rfl

/-- Witness for `report_day_aggregation`: the example day with check-in at
09:30 (timestamp 34200) and check-out at 19:15 (timestamp 69300) has
`worked = 69300 - 34200 = 35100` seconds. -/
theorem report_day_aggregation_witness :
    (⟨0, some 34200, some 69300, 35100⟩ : DayRow).worked = 69300 - 34200 :=
  (report_day_aggregation.2.1 [⟨34200, .checkin⟩, ⟨69300, .checkout⟩] 0 86399
    ⟨0, some 34200, some 69300, 35100⟩ (by decide)).2.2.2.2.1
    34200 69300 rfl rfl

/-- Claim C10: the worked duration is not clamped at zero: on a day whose
latest check-out timestamp is strictly earlier than its earliest check-in
timestamp, `worked` is the negative difference, and the negative value
flows into the window total (concretely, check-in at 200 and check-out at
100 give `worked = -100` and total `-100`). -/
theorem negative_worked_not_clamped :
    (∀ (events : List REvent) (s e : ℤ) (row : DayRow),
      row ∈ (build_report events s e).1 →
      ∀ a b : ℤ, row.check_in = some a → row.check_out = some b → b < a →
        row.worked = b - a ∧ row.worked < 0) ∧
    build_report [⟨200, .checkin⟩, ⟨100, .checkout⟩] 0 86399 =
      ([⟨0, some 200, some 100, -100⟩], -100) := by
  refine ⟨?_, by decide⟩
  intro events s e row hrow a b hci hco hba
  rw [build_report] at hrow
  simp only [List.mem_map] at hrow
  obtain ⟨d, hd, hrw⟩ := hrow
  subst hrw
  rw [dayRow_check_in] at hci
  rw [dayRow_check_out] at hco
  rw [dayRow_worked, hci, hco]
  refine ⟨rfl, ?_⟩
  show b - a < 0
  omega

/-- Witness for `negative_worked_not_clamped`: the concrete inverted day
(check-in at 200, check-out at 100) has `worked = 100 - 200 < 0`. -/
theorem negative_worked_not_clamped_witness :
    (⟨0, some 200, some 100, -100⟩ : DayRow).worked = 100 - 200 ∧
    (⟨0, some 200, some 100, -100⟩ : DayRow).worked < 0 :=
  negative_worked_not_clamped.1 [⟨200, .checkin⟩, ⟨100, .checkout⟩] 0 86399
    ⟨0, some 200, some 100, -100⟩ (by decide) 200 100 rfl rfl (by decide)

end Zugoweb
